import Mathlib

/-!
Verification of the phone-gate-bridge webhook service against its design
specification.  The Python sources (`gate_bridge/webhook.py` and
`gate_bridge/client.py`) are shallowly embedded as executable Lean
definitions; machine-level Python primitives (`str.strip`, `str.isdigit`,
`str.lower`, `str.splitlines`) are modelled on ASCII data, which covers
every value the service manipulates.
-/

namespace GateBridge

/-! ## Python string primitives -/

/-- The whitespace characters removed by the Python `str.strip()` method
(space, tab, newline, carriage return, vertical tab, form feed).  Exotic
Unicode spaces are outside the data handled by the service and omitted. -/
def pyIsSpace (c : Char) : Bool :=
  c.toNat == 32 || c.toNat == 9 || c.toNat == 10 ||
  c.toNat == 13 || c.toNat == 11 || c.toNat == 12

/-- The Python `str.isdigit` test, on the ASCII digits.  Python also accepts
some Unicode digit characters; none of those is whitespace or `+`, so the
properties proved below are unaffected. -/
def pyIsDigit (c : Char) : Bool :=
  48 ≤ c.toNat && c.toNat ≤ 57

/-- Python `str.lower`, on ASCII letters. -/
def pyToLower (c : Char) : Char :=
  if 65 ≤ c.toNat && c.toNat ≤ 90 then Char.ofNat (c.toNat + 32) else c

/-- `str.strip()` on a character list: drop leading and trailing whitespace. -/
def pyStripL (l : List Char) : List Char :=
  ((l.dropWhile pyIsSpace).reverse.dropWhile pyIsSpace).reverse

/-- Python `str.strip()`. -/
def pyStrip (s : String) : String :=
  ⟨pyStripL s.data⟩

/-- Python `str.lower()`. -/
def pyLower (s : String) : String :=
  ⟨s.data.map pyToLower⟩

/-! ## `normalize_phone` (webhook.py lines 148-152) -/

/-- `normalize_phone`: strip the input; if the stripped value starts with
`+`, keep a single leading `+` followed by the digits of the remainder,
otherwise keep just the digits. -/
def normalize_phone (s : String) : String :=
  let t := pyStripL s.data
  if t.head? = some '+' then ⟨'+' :: t.tail.filter pyIsDigit⟩
  else ⟨t.filter pyIsDigit⟩

/-! ## Allowed callers (webhook.py lines 55-60 and 219-228) -/

/-- The `AllowedCaller` frozen dataclass. -/
structure AllowedCaller where
  number : String
  name : String := ""
  enabled : Bool := true
  notes : String := ""
  deriving Repr, DecidableEq

/-- The scan loop of `find_allowed_caller`. -/
def findCallerLoop (n : String) : List AllowedCaller → Option AllowedCaller
  | [] => none
  | a :: rest => if a.enabled && a.number == n then some a else findCallerLoop n rest

/-- `find_allowed_caller`: normalize the caller, return `none` when the
normal form is empty, otherwise the first enabled entry with that number. -/
def find_allowed_caller (caller : String) (allowed : List AllowedCaller) :
    Option AllowedCaller :=
  let n := normalize_phone caller
  if n = "" then none else findCallerLoop n allowed

/-! ## Helper lemmas about stripping and filtering -/

theorem dropWhile_eq_self_of_none (p : Char → Bool) (l : List Char)
    (h : ∀ c ∈ l, p c = false) : l.dropWhile p = l := by
  cases l with
  | nil => rfl
  | cons a t => simp [List.dropWhile, h a (List.mem_cons_self a t)]

theorem pyStripL_eq_self (l : List Char) (h : ∀ c ∈ l, pyIsSpace c = false) :
    pyStripL l = l := by
  unfold pyStripL
  rw [dropWhile_eq_self_of_none _ _ h]
  rw [dropWhile_eq_self_of_none _ _ (fun c hc => h c (List.mem_reverse.mp hc))]
  exact List.reverse_reverse l

theorem pyIsDigit_not_space {c : Char} (h : pyIsDigit c = true) :
    pyIsSpace c = false := by
  simp only [pyIsDigit, Bool.and_eq_true, decide_eq_true_eq] at h
  simp only [pyIsSpace, Bool.or_eq_false_iff, beq_eq_false_iff_ne, ne_eq]
  omega

theorem plus_not_space : pyIsSpace '+' = false := by decide

theorem plus_not_digit : pyIsDigit '+' = false := by decide

theorem filter_digits_no_space (l : List Char) :
    ∀ c ∈ l.filter pyIsDigit, pyIsSpace c = false := by
  intro c hc
  exact pyIsDigit_not_space (List.of_mem_filter hc)

/-- `normalize_phone` is idempotent. -/
theorem normalize_phone_idem (s : String) :
    normalize_phone (normalize_phone s) = normalize_phone s := by
  unfold normalize_phone
  set t := pyStripL s.data with ht
  by_cases h : t.head? = some '+'
  · rw [if_pos h]
    have hns : ∀ c ∈ '+' :: t.tail.filter pyIsDigit, pyIsSpace c = false := by
      intro c hc
      rcases List.mem_cons.mp hc with h1 | h2
      · rw [h1]; exact plus_not_space
      · exact filter_digits_no_space _ c h2
    show (if (pyStripL ('+' :: t.tail.filter pyIsDigit)).head? = some '+' then _
        else _) = _
    rw [pyStripL_eq_self _ hns]
    simp [List.filter_filter, Bool.and_self]
  · rw [if_neg h]
    show (if (pyStripL (t.filter pyIsDigit)).head? = some '+' then _ else _) = _
    rw [pyStripL_eq_self _ (filter_digits_no_space t)]
    have hhead : (t.filter pyIsDigit).head? ≠ some '+' := by
      intro hcontra
      cases hf : t.filter pyIsDigit with
      | nil => rw [hf] at hcontra; simp at hcontra
      | cons a r =>
        rw [hf] at hcontra
        simp only [List.head?_cons, Option.some.injEq] at hcontra
        have hmem : a ∈ t.filter pyIsDigit := by
          rw [hf]; exact List.mem_cons_self a r
        have : pyIsDigit a = true := List.of_mem_filter hmem
        rw [hcontra] at this
        exact absurd this (by decide)
    rw [if_neg hhead]
    simp [List.filter_filter, Bool.and_self]

/-- A whitespace-only string normalizes to the empty string. -/
theorem normalize_phone_of_strip_empty (s : String) (h : pyStrip s = "") :
    normalize_phone s = "" := by
  have hl : pyStripL s.data = [] := congrArg String.data h
  unfold normalize_phone
  rw [hl]
  simp [List.head?]

/-- `find_allowed_caller` characterized through `List.find?`. -/
theorem findCallerLoop_eq_find? (n : String) (l : List AllowedCaller) :
    findCallerLoop n l = l.find? (fun a => a.enabled && a.number == n) := by
  induction l with
  | nil => rfl
  | cons a t ih =>
    unfold findCallerLoop
    rw [List.find?_cons]
    by_cases h : (a.enabled && a.number == n) = true
    · simp [h]
    · simp [h, ih]

/-! ### C8 and C4 -/

/-- C8: the phone normalizer is idempotent, and satisfies the two concrete
examples `normalize("+1 (707) 555-1111") = "+17075551111"` and
`normalize("707-555-1111") = "7075551111"`. -/
theorem C8_normalize_idempotent_and_examples :
    (∀ s : String, normalize_phone (normalize_phone s) = normalize_phone s) ∧
    normalize_phone "+1 (707) 555-1111" = "+17075551111" ∧
    normalize_phone "707-555-1111" = "7075551111" :=
  ⟨normalize_phone_idem, by decide, by decide⟩

/-- C4: the caller lookup normalizes the caller and returns the first entry
whose canonical number equals the normal form with the enabled flag true;
disabled entries never match; input that strips to the empty string (hence
also input that normalizes to the empty string) never matches any entry. -/
theorem C4_find_allowed_caller_spec (caller : String)
    (allowed : List AllowedCaller) :
    (normalize_phone caller ≠ "" →
      find_allowed_caller caller allowed =
        allowed.find? (fun a => a.enabled && a.number == normalize_phone caller)) ∧
    (normalize_phone caller = "" → find_allowed_caller caller allowed = none) ∧
    (pyStrip caller = "" → find_allowed_caller caller allowed = none) ∧
    (∀ a, find_allowed_caller caller allowed = some a →
      a.enabled = true ∧ a.number = normalize_phone caller) := by
  refine ⟨fun h => ?_, fun h => ?_, fun h => ?_, fun a ha => ?_⟩
  · unfold find_allowed_caller
    rw [if_neg h, findCallerLoop_eq_find?]
  · unfold find_allowed_caller
    rw [if_pos h]
  · unfold find_allowed_caller
    rw [if_pos (normalize_phone_of_strip_empty caller h)]
  · unfold find_allowed_caller at ha
    by_cases h : normalize_phone caller = ""
    · rw [if_pos h] at ha; exact absurd ha (by simp)
    · rw [if_neg h, findCallerLoop_eq_find?] at ha
      have := List.find?_some ha
      simp only [Bool.and_eq_true, beq_iff_eq] at this
      exact ⟨this.1, this.2⟩

/-- Witness for C4 at concrete inputs. -/
theorem C4_find_allowed_caller_spec_witness :
    find_allowed_caller "+1 (707) 555-1111"
      [⟨"+17075551111", "Oren", true, ""⟩] =
      some ⟨"+17075551111", "Oren", true, ""⟩ ∧
    find_allowed_caller "  " [⟨"", "", true, ""⟩] = none := by
  constructor
  · rw [(C4_find_allowed_caller_spec "+1 (707) 555-1111"
      [⟨"+17075551111", "Oren", true, ""⟩]).1 (by decide)]
    decide
  · exact (C4_find_allowed_caller_spec "  " [⟨"", "", true, ""⟩]).2.2.1 (by decide)

/-! ## Request signature verifier (webhook.py lines 352-374)

`build_twilio_signature` concatenates the URL with, for each form key in
ascending order, the key followed by each of its values, HMACs the payload
with SHA-1 and base64-encodes the digest.  Bytes are modelled as `Nat`
values below 256 and 32-bit arithmetic is explicit `% 2^32`. -/

def M32 : Nat := 4294967296

/-- UTF-8 encoding of one character (`str.encode("utf-8")`). -/
def utf8Bytes (c : Char) : List Nat :=
  let n := c.toNat
  if n < 128 then [n]
  else if n < 2048 then [192 + n / 64, 128 + n % 64]
  else if n < 65536 then [224 + n / 4096, 128 + (n / 64) % 64, 128 + n % 64]
  else [240 + n / 262144, 128 + (n / 4096) % 64, 128 + (n / 64) % 64, 128 + n % 64]

/-- UTF-8 encoding of a string. -/
def strBytes (s : String) : List Nat :=
  (s.data.map utf8Bytes).flatten

/-- 32-bit left rotation. -/
def rotl32 (x b : Nat) : Nat :=
  Nat.lor ((x <<< b) % M32) (x >>> (32 - b))

/-- Big-endian bytes of a 32-bit word. -/
def be32 (n : Nat) : List Nat :=
  [n / 16777216 % 256, n / 65536 % 256, n / 256 % 256, n % 256]

/-- Big-endian bytes of a 64-bit word. -/
def be64 (n : Nat) : List Nat :=
  be32 (n / M32) ++ be32 (n % M32)

/-- SHA-1 padding: `0x80`, zeros to 56 mod 64, then the 64-bit bit length. -/
def sha1Pad (msg : List Nat) : List Nat :=
  let len := msg.length
  let z := (64 + 56 - ((len + 1) % 64)) % 64
  msg ++ [128] ++ List.replicate z 0 ++ be64 (len * 8)

/-- Big-endian 32-bit words of a byte list. -/
def bytesToWords : List Nat → List Nat
  | b0 :: b1 :: b2 :: b3 :: rest =>
    (b0 * 16777216 + b1 * 65536 + b2 * 256 + b3) :: bytesToWords rest
  | _ => []

/-- Extend the 16 chunk words to the 80-word SHA-1 message schedule. -/
def extendWords (w : Array Nat) : Nat → Array Nat
  | 0 => w
  | k + 1 =>
    let s := w.size
    let word := rotl32 (Nat.xor (Nat.xor (w.getD (s - 3) 0) (w.getD (s - 8) 0))
      (Nat.xor (w.getD (s - 14) 0) (w.getD (s - 16) 0))) 1
    extendWords (w.push word) k

/-- The SHA-1 round function. -/
def sha1F (i b c d : Nat) : Nat :=
  if i < 20 then Nat.lor (Nat.land b c) (Nat.land (M32 - 1 - b) d)
  else if i < 40 then Nat.xor (Nat.xor b c) d
  else if i < 60 then Nat.lor (Nat.lor (Nat.land b c) (Nat.land b d)) (Nat.land c d)
  else Nat.xor (Nat.xor b c) d

/-- The SHA-1 round constants. -/
def sha1K (i : Nat) : Nat :=
  if i < 20 then 1518500249
  else if i < 40 then 1859775393
  else if i < 60 then 2400959708
  else 3395469782

/-- The 80 SHA-1 compression rounds. -/
def sha1Rounds (w : Array Nat) (i : Nat) :
    Nat → Nat × Nat × Nat × Nat × Nat → Nat × Nat × Nat × Nat × Nat
  | 0, st => st
  | k + 1, (a, b, c, d, e) =>
    let temp := (rotl32 a 5 + sha1F i b c d + e + sha1K i + w.getD i 0) % M32
    sha1Rounds w (i + 1) k (temp, a, rotl32 b 30, c, d)

/-- Compress one 64-byte chunk into the running SHA-1 state. -/
def sha1Chunk (h : Nat × Nat × Nat × Nat × Nat) (chunk : List Nat) :
    Nat × Nat × Nat × Nat × Nat :=
  let w := extendWords (List.toArray (bytesToWords chunk)) 64
  let (h0, h1, h2, h3, h4) := h
  let (a, b, c, d, e) := sha1Rounds w 0 80 (h0, h1, h2, h3, h4)
  ((h0 + a) % M32, (h1 + b) % M32, (h2 + c) % M32, (h3 + d) % M32, (h4 + e) % M32)

/-- Fold the compression function over all 64-byte chunks. -/
def sha1Chunks (h : Nat × Nat × Nat × Nat × Nat) :
    List Nat → Nat × Nat × Nat × Nat × Nat
  | [] => h
  | b :: rest => sha1Chunks (sha1Chunk h ((b :: rest).take 64)) ((b :: rest).drop 64)
termination_by l => l.length
decreasing_by
  simp only [List.length_drop, List.length_cons]
  omega

/-- The SHA-1 digest (20 bytes) of a byte list. -/
def sha1 (msg : List Nat) : List Nat :=
  let (h0, h1, h2, h3, h4) :=
    sha1Chunks (1732584193, 4023233417, 2562383102, 271733878, 3285377520)
      (sha1Pad msg)
  be32 h0 ++ be32 h1 ++ be32 h2 ++ be32 h3 ++ be32 h4

/-- HMAC-SHA1 (`hmac.new(key, payload, hashlib.sha1)`). -/
def hmacSha1 (key msg : List Nat) : List Nat :=
  let k0 := if 64 < key.length then sha1 key else key
  let k1 := k0 ++ List.replicate (64 - k0.length) 0
  sha1 ((k1.map fun b => Nat.xor b 92) ++ sha1 ((k1.map fun b => Nat.xor b 54) ++ msg))

/-- The base64 alphabet. -/
def b64Alphabet : List Char :=
  "ABCDEFGHIJKLMNOPQRSTUVWXYZabcdefghijklmnopqrstuvwxyz0123456789+/".data

/-- The base64 character for a 6-bit group. -/
def b64Char (n : Nat) : Char := b64Alphabet.getD n '='

/-- Standard base64 encoding with `=` padding (`base64.b64encode`). -/
def base64Chars : List Nat → List Char
  | [] => []
  | [b0] =>
    let n := b0 * 65536
    [b64Char (n / 262144 % 64), b64Char (n / 4096 % 64), '=', '=']
  | [b0, b1] =>
    let n := b0 * 65536 + b1 * 256
    [b64Char (n / 262144 % 64), b64Char (n / 4096 % 64), b64Char (n / 64 % 64), '=']
  | b0 :: b1 :: b2 :: rest =>
    let n := b0 * 65536 + b1 * 256 + b2
    b64Char (n / 262144 % 64) :: b64Char (n / 4096 % 64) :: b64Char (n / 64 % 64) ::
      b64Char (n % 64) :: base64Chars rest

/-- `base64.b64encode(...).decode("utf-8")`. -/
def base64Encode (bytes : List Nat) : String := ⟨base64Chars bytes⟩

/-- Stable insertion of a form field by ascending key. -/
def insertSorted (x : String × List String) :
    List (String × List String) → List (String × List String)
  | [] => [x]
  | y :: rest => if x.1 < y.1 then x :: y :: rest else y :: insertSorted x rest

/-- `sorted(form.keys())` applied to the field list: stable sort by key. -/
def sortByKey : List (String × List String) → List (String × List String)
  | [] => []
  | x :: rest => insertSorted x (sortByKey rest)

/-- `build_twilio_signature`: concatenate the URL with key/value pairs in
ascending key order (the key repeated before each of its values), HMAC-SHA1
with the auth token, base64-encode. -/
def build_twilio_signature (url : String) (form : List (String × List String))
    (auth_token : String) : String :=
  let payload := (sortByKey form).foldl
    (fun acc kv => kv.2.foldl (fun a v => a ++ kv.1 ++ v) acc) url
  base64Encode (hmacSha1 (strBytes auth_token) (strBytes payload))

/-- `is_valid_twilio_signature`: false when the header is absent or empty,
otherwise compare the stripped header against the recomputed signature
(`hmac.compare_digest` is equality; constant-timeness is a timing property
with no functional content). -/
def is_valid_twilio_signature (signature : Option String) (url : String)
    (form : List (String × List String)) (auth_token : String) : Bool :=
  match signature with
  | none => false
  | some s =>
    if s = "" then false
    else pyStrip s == build_twilio_signature url form auth_token

/-! ### Lemmas about the signature encoding -/

theorem b64Alphabet_no_space : ∀ c ∈ b64Alphabet, pyIsSpace c = false := by decide

theorem b64Char_not_space (n : Nat) : pyIsSpace (b64Char n) = false := by
  unfold b64Char
  by_cases h : n < b64Alphabet.length
  · rw [List.getD_eq_getElem _ _ h]
    exact b64Alphabet_no_space _ (List.getElem_mem h)
  · rw [List.getD_eq_default _ _ (Nat.le_of_not_lt h)]
    decide

theorem base64Chars_no_space :
    ∀ (bytes : List Nat), ∀ c ∈ base64Chars bytes, pyIsSpace c = false
  | [], c, h => by simp [base64Chars] at h
  | [b0], c, h => by
    simp only [base64Chars, List.mem_cons, List.not_mem_nil, or_false] at h
    rcases h with h | h | h | h <;> subst h <;>
      first | exact b64Char_not_space _ | decide
  | [b0, b1], c, h => by
    simp only [base64Chars, List.mem_cons, List.not_mem_nil, or_false] at h
    rcases h with h | h | h | h <;> subst h <;>
      first | exact b64Char_not_space _ | decide
  | b0 :: b1 :: b2 :: rest, c, h => by
    simp only [base64Chars, List.mem_cons] at h
    rcases h with h | h | h | h | h
    · subst h; exact b64Char_not_space _
    · subst h; exact b64Char_not_space _
    · subst h; exact b64Char_not_space _
    · subst h; exact b64Char_not_space _
    · exact base64Chars_no_space rest c h

theorem base64Chars_ne_nil (b0 : Nat) (l : List Nat) :
    base64Chars (b0 :: l) ≠ [] := by
  match l with
  | [] => simp [base64Chars]
  | [b1] => simp [base64Chars]
  | b1 :: b2 :: rest => simp [base64Chars]

theorem sha1_ne_nil (msg : List Nat) : sha1 msg ≠ [] := by
  unfold sha1
  rcases sha1Chunks (1732584193, 4023233417, 2562383102, 271733878, 3285377520)
      (sha1Pad msg) with ⟨h0, h1, h2, h3, h4⟩
  simp [be32]

theorem sha1_cons (msg : List Nat) : ∃ b l, sha1 msg = b :: l := by
  rcases h : sha1 msg with _ | ⟨b, l⟩
  · exact absurd h (sha1_ne_nil msg)
  · exact ⟨b, l, rfl⟩

theorem hmacSha1_cons (key msg : List Nat) : ∃ b l, hmacSha1 key msg = b :: l := by
  unfold hmacSha1
  exact sha1_cons _

/-- The signature string is never empty. -/
theorem build_twilio_signature_data (url : String)
    (form : List (String × List String)) (auth_token : String) :
    (build_twilio_signature url form auth_token).data =
      base64Chars (hmacSha1 (strBytes auth_token)
        (strBytes ((sortByKey form).foldl
          (fun acc kv => kv.2.foldl (fun a v => a ++ kv.1 ++ v) acc) url))) := rfl

/-- The signature string is never empty. -/
theorem build_twilio_signature_ne_empty (url : String)
    (form : List (String × List String)) (auth_token : String) :
    build_twilio_signature url form auth_token ≠ "" := by
  intro hcontra
  have hd := congrArg String.data hcontra
  rw [build_twilio_signature_data] at hd
  obtain ⟨b, l, hb⟩ := hmacSha1_cons (strBytes auth_token)
    (strBytes ((sortByKey form).foldl
      (fun acc kv => kv.2.foldl (fun a v => a ++ kv.1 ++ v) acc) url))
  rw [hb] at hd
  exact base64Chars_ne_nil b l hd

/-- Stripping the computed signature is the identity. -/
theorem pyStrip_signature (url : String) (form : List (String × List String))
    (auth_token : String) :
    pyStrip (build_twilio_signature url form auth_token) =
      build_twilio_signature url form auth_token := by
  have hns : ∀ c ∈ (build_twilio_signature url form auth_token).data,
      pyIsSpace c = false := by
    rw [build_twilio_signature_data]
    exact base64Chars_no_space _
  show String.mk (pyStripL (build_twilio_signature url form auth_token).data) = _
  rw [pyStripL_eq_self _ hns]

/-- Verification accepts the signature built from the same inputs. -/
theorem verify_of_sign (url : String) (form : List (String × List String))
    (auth_token : String) :
    is_valid_twilio_signature (some (build_twilio_signature url form auth_token))
      url form auth_token = true := by
  show (if build_twilio_signature url form auth_token = "" then false
    else pyStrip (build_twilio_signature url form auth_token) ==
      build_twilio_signature url form auth_token) = true
  rw [if_neg (build_twilio_signature_ne_empty url form auth_token),
    pyStrip_signature]
  exact beq_self_eq_true _

theorem pyStripL_length_le (l : List Char) : (pyStripL l).length ≤ l.length := by
  unfold pyStripL
  calc (((l.dropWhile pyIsSpace).reverse.dropWhile pyIsSpace).reverse).length
      = ((l.dropWhile pyIsSpace).reverse.dropWhile pyIsSpace).length :=
        List.length_reverse _
    _ ≤ (l.dropWhile pyIsSpace).reverse.length :=
        (List.dropWhile_sublist pyIsSpace).length_le
    _ = (l.dropWhile pyIsSpace).length := List.length_reverse _
    _ ≤ l.length := (List.dropWhile_sublist pyIsSpace).length_le

theorem pyStripL_eq_self_of_length (l : List Char)
    (h : (pyStripL l).length = l.length) : pyStripL l = l := by
  have hb : (pyStripL l).length ≤ (l.dropWhile pyIsSpace).length := by
    unfold pyStripL
    rw [List.length_reverse]
    calc ((l.dropWhile pyIsSpace).reverse.dropWhile pyIsSpace).length
        ≤ (l.dropWhile pyIsSpace).reverse.length :=
          (List.dropWhile_sublist pyIsSpace).length_le
      _ = (l.dropWhile pyIsSpace).length := List.length_reverse _
  have ha : (l.dropWhile pyIsSpace).length ≤ l.length :=
    (List.dropWhile_sublist pyIsSpace).length_le
  have h1 : (l.dropWhile pyIsSpace).length = l.length := by omega
  have e1 : l.dropWhile pyIsSpace = l :=
    (List.dropWhile_suffix pyIsSpace).eq_of_length h1
  have hstrip : pyStripL l = (l.reverse.dropWhile pyIsSpace).reverse := by
    unfold pyStripL
    rw [e1]
  have h2 : (l.reverse.dropWhile pyIsSpace).length = l.reverse.length := by
    have hrl : (pyStripL l).length = (l.reverse.dropWhile pyIsSpace).length := by
      rw [hstrip, List.length_reverse]
    rw [List.length_reverse]
    omega
  have e2 : l.reverse.dropWhile pyIsSpace = l.reverse :=
    (List.dropWhile_suffix pyIsSpace).eq_of_length h2
  rw [hstrip, e2, List.reverse_reverse]

/-- A single-character substitution: some position of `orig` replaced by a
character different from the original one. -/
def singleCharMutation (orig m : String) : Prop :=
  ∃ i c, i < orig.data.length ∧ orig.data.get? i ≠ some c ∧
    m.data = orig.data.set i c

/-! ### C2 -/

/-- C2: verifying the signature produced by signing the same URL, form and
secret returns true for every input; an absent (`None` or empty) signature
header verifies false; and any string obtained from the correct signature by
substituting one character verifies false. -/
theorem C2_signature_roundtrip (url : String)
    (form : List (String × List String)) (tok : String) :
    is_valid_twilio_signature (some (build_twilio_signature url form tok))
        url form tok = true ∧
    is_valid_twilio_signature none url form tok = false ∧
    is_valid_twilio_signature (some "") url form tok = false ∧
    (∀ m, singleCharMutation (build_twilio_signature url form tok) m →
      is_valid_twilio_signature (some m) url form tok = false) := by
  refine ⟨verify_of_sign url form tok, rfl, by simp [is_valid_twilio_signature],
    fun m hm => ?_⟩
  obtain ⟨i, c, hi, hne, hm⟩ := hm
  set e := build_twilio_signature url form tok with he
  show (if m = "" then false else pyStrip m == e) = false
  by_cases hempty : m = ""
  · rw [if_pos hempty]
  · rw [if_neg hempty]
    have hlen : m.data.length = e.data.length := by
      rw [hm]; exact List.length_set _ _ _
    simp only [beq_eq_false_iff_ne, ne_eq]
    intro hstrip
    have hsl : (pyStripL m.data).length = m.data.length := by
      have : pyStrip m = e := hstrip
      have hd : pyStripL m.data = e.data := congrArg String.data this
      rw [hd, hlen]
    have hself : pyStripL m.data = m.data := pyStripL_eq_self_of_length _ hsl
    have hme : m.data = e.data := by
      have hd : pyStripL m.data = e.data := congrArg String.data hstrip
      rw [hself] at hd
      exact hd
    rw [hm] at hme
    have : e.data.get? i = some c := by
      conv_lhs => rw [← hme]
      rw [List.get?_eq_getElem?, List.getElem?_set_self',
        List.getElem?_eq_getElem hi]
      rfl
    exact hne this

/-- Witness for C2: the first character of a concrete signature flipped. -/
theorem C2_signature_roundtrip_witness :
    is_valid_twilio_signature
      (some ⟨(build_twilio_signature "https://g/v" [("From", ["+1"])] "tok").data.set 0
        (if (build_twilio_signature "https://g/v" [("From", ["+1"])] "tok").data.getD 0 'A' = 'A'
          then 'B' else 'A')⟩)
      "https://g/v" [("From", ["+1"])] "tok" = false := by
  set e := build_twilio_signature "https://g/v" [("From", ["+1"])] "tok" with he
  obtain ⟨b, l, hb⟩ : ∃ b l, e.data = b :: l := by
    rcases hd : e.data with _ | ⟨b, l⟩
    · exact absurd (show e = "" from congrArg String.mk hd)
        (build_twilio_signature_ne_empty _ _ _)
    · exact ⟨b, l, rfl⟩
  have hgetD : e.data.getD 0 'A' = b := by rw [hb]; rfl
  have hget? : e.data.get? 0 = some b := by rw [hb]; rfl
  refine (C2_signature_roundtrip "https://g/v" [("From", ["+1"])] "tok").2.2.2 _
    ⟨0, if e.data.getD 0 'A' = 'A' then 'B' else 'A', ?_, ?_, rfl⟩
  · rw [hb]; simp
  · rw [hget?, hgetD]
    by_cases hA : b = 'A'
    · rw [if_pos hA, hA]
      intro hc
      exact absurd (Option.some.inj hc) (by decide)
    · rw [if_neg hA]
      intro hc
      exact hA (Option.some.inj hc)

/-! ## Door resolver and unlock client (client.py lines 35-97)

A door entry carries the three string fields that `find_door_id` reads from
the controller JSON (`door.get("name", "")`, `door.get("full_name", "")`,
`door.get("id")`); missing fields are the empty string. -/

structure Door where
  name : String := ""
  full_name : String := ""
  id : String := ""
  deriving Repr, DecidableEq

/-- Case-insensitive substring containment (`needle in hay` on Python
strings); the empty needle is contained in everything. -/
def pyContains (needle hay : String) : Bool :=
  decide (needle.data <:+: hay.data)

/-- Exact match of the trimmed lowercased door name against the needle. -/
def exactNameMatch (q : String) (d : Door) : Bool :=
  pyLower (pyStrip d.name) == q

/-- Exact match of the trimmed lowercased full name against the needle. -/
def exactFullMatch (q : String) (d : Door) : Bool :=
  pyLower (pyStrip d.full_name) == q

/-- Containment of the needle in either lowercased field. -/
def containsMatch (q : String) (d : Door) : Bool :=
  pyContains q (pyLower (pyStrip d.name)) || pyContains q (pyLower (pyStrip d.full_name))

/-- The classification loop of `find_door_id`: each door is appended to the
first bucket whose condition holds (`if` / `elif` / `elif`). -/
def exact_name_matches (q : String) (doors : List Door) : List Door :=
  doors.filter (exactNameMatch q)

def exact_full_matches (q : String) (doors : List Door) : List Door :=
  doors.filter (fun d => !exactNameMatch q d && exactFullMatch q d)

def contains_matches (q : String) (doors : List Door) : List Door :=
  doors.filter (fun d => !exactNameMatch q d && !exactFullMatch q d && containsMatch q d)

/-- `matches = exact_name_matches or exact_full_matches or contains_matches`. -/
def selectedMatches (q : String) (doors : List Door) : List Door :=
  if exact_name_matches q doors ≠ [] then exact_name_matches q doors
  else if exact_full_matches q doors ≠ [] then exact_full_matches q doors
  else contains_matches q doors

/-- Failure modes of `find_door_id`: the `ValueError` for a missing door
name, and the three `AccessApiError` cases. -/
inductive FindDoorError where
  | doorNameRequired
  | noMatch
  | ambiguous (names : List String)
  | missingId
  deriving Repr, DecidableEq

/-- `item.get("full_name") or item.get("name")`: the full name unless it is
empty (falsy), else the display name. -/
def doorDisplayName (d : Door) : String :=
  if d.full_name = "" then d.name else d.full_name

deriving instance DecidableEq for Except

/-- `find_door_id`: reject an empty door name, classify every door into the
three priority buckets, take the first non-empty bucket, and demand a
unique match carrying a non-blank id. -/
def find_door_id (door_name : String) (doors : List Door) :
    Except FindDoorError String :=
  if door_name = "" then .error .doorNameRequired
  else
    let needle := pyLower (pyStrip door_name)
    let ms := selectedMatches needle doors
    if ms = [] then .error .noMatch
    else if 1 < ms.length then
      .error (.ambiguous (ms.map doorDisplayName))
    else
      let door_id := (ms.headD ⟨"", "", ""⟩).id
      if pyStrip door_id = "" then .error .missingId else .ok door_id

/-- Tier 1 of the specification: case-insensitive exact match on the
trimmed `name`, over all doors. -/
def tier1 (q : String) (doors : List Door) : List Door :=
  doors.filter (exactNameMatch q)

/-- Tier 2: case-insensitive exact match on the trimmed `full_name`. -/
def tier2 (q : String) (doors : List Door) : List Door :=
  doors.filter (exactFullMatch q)

/-- Tier 3: substring containment of the query in either field. -/
def tier3 (q : String) (doors : List Door) : List Door :=
  doors.filter (containsMatch q)

/-- The highest non-empty tier, in the claim formulation. -/
def selectedTier (q : String) (doors : List Door) : List Door :=
  if tier1 q doors ≠ [] then tier1 q doors
  else if tier2 q doors ≠ [] then tier2 q doors
  else tier3 q doors

/-- The `elif` bucket selection of the code coincides with the plain
highest-non-empty-tier selection of the specification. -/
theorem selectedMatches_eq_selectedTier (q : String) (doors : List Door) :
    selectedMatches q doors = selectedTier q doors := by
  have hen : exact_name_matches q doors = tier1 q doors := rfl
  by_cases h1 : tier1 q doors = []
  · have hn : ∀ d ∈ doors, exactNameMatch q d = false := by
      intro d hd
      simpa using List.filter_eq_nil_iff.mp h1 d hd
    have e2 : exact_full_matches q doors = tier2 q doors :=
      List.filter_congr (fun d hd => by rw [hn d hd]; simp)
    by_cases h2 : tier2 q doors = []
    · have hf : ∀ d ∈ doors, exactFullMatch q d = false := by
        intro d hd
        simpa using List.filter_eq_nil_iff.mp h2 d hd
      have e3 : contains_matches q doors = tier3 q doors :=
        List.filter_congr (fun d hd => by rw [hn d hd, hf d hd]; simp)
      unfold selectedMatches selectedTier
      rw [hen, e2, e3]
    · unfold selectedMatches selectedTier
      rw [hen, e2]
      simp [h1, h2]
  · unfold selectedMatches selectedTier
    rw [hen]
    simp [h1]

/-! ### C3 -/

/-- C3 (amended): for a non-empty name query, resolution selects the highest
non-empty tier among exact-name, exact-full-name and substring matches; more
than one door in that tier is an ambiguity error listing each conflicting
door by full name (falling back to its display name when the full name is
empty); an empty selection is a distinct not-found error; a unique match
yields its id when that id is non-blank and a missing-id error otherwise. -/
theorem C3_find_door_id_tiers (door_name : String) (doors : List Door)
    (hq : door_name ≠ "") :
    (selectedTier (pyLower (pyStrip door_name)) doors = [] →
      find_door_id door_name doors = .error .noMatch) ∧
    (1 < (selectedTier (pyLower (pyStrip door_name)) doors).length →
      find_door_id door_name doors = .error (.ambiguous
        ((selectedTier (pyLower (pyStrip door_name)) doors).map doorDisplayName))) ∧
    (∀ d, selectedTier (pyLower (pyStrip door_name)) doors = [d] →
      find_door_id door_name doors =
        if pyStrip d.id = "" then .error .missingId else .ok d.id) := by
  have heq : find_door_id door_name doors =
      (if selectedTier (pyLower (pyStrip door_name)) doors = [] then
        .error .noMatch
      else if 1 < (selectedTier (pyLower (pyStrip door_name)) doors).length then
        .error (.ambiguous
          ((selectedTier (pyLower (pyStrip door_name)) doors).map doorDisplayName))
      else if pyStrip ((selectedTier (pyLower (pyStrip door_name)) doors).headD
          ⟨"", "", ""⟩).id = "" then .error .missingId
      else .ok ((selectedTier (pyLower (pyStrip door_name)) doors).headD
          ⟨"", "", ""⟩).id) := by
    simp only [find_door_id, if_neg hq, selectedMatches_eq_selectedTier]
  refine ⟨fun h => ?_, fun h => ?_, fun d h => ?_⟩
  · rw [heq, if_pos h]
  · have hne : selectedTier (pyLower (pyStrip door_name)) doors ≠ [] := by
      intro hnil
      rw [hnil] at h
      exact absurd h (by simp)
    rw [heq, if_neg hne, if_pos h]
  · rw [heq, h]
    simp

/-- Witness for C3 at the concrete inputs of the specification examples. -/
theorem C3_find_door_id_tiers_witness :
    find_door_id "gate" [⟨"Side Door", "", "1"⟩, ⟨"Gate", "", "2"⟩] = .ok "2" ∧
    find_door_id "gate" [⟨"Gate East", "", "1"⟩, ⟨"Gate West", "", "2"⟩] =
      .error (.ambiguous ["Gate East", "Gate West"]) ∧
    find_door_id "gate" [⟨"Side Door", "", "1"⟩] = .error .noMatch := by
  refine ⟨?_, ?_, ?_⟩
  · have h := (C3_find_door_id_tiers "gate"
      [⟨"Side Door", "", "1"⟩, ⟨"Gate", "", "2"⟩] (by decide)).2.2
      ⟨"Gate", "", "2"⟩ (by decide)
    rw [h]
    decide
  · have h := (C3_find_door_id_tiers "gate"
      [⟨"Gate East", "", "1"⟩, ⟨"Gate West", "", "2"⟩] (by decide)).2.1
      (by decide)
    rw [h]
    decide
  · exact (C3_find_door_id_tiers "gate" [⟨"Side Door", "", "1"⟩] (by decide)).1
      (by decide)

/-- Counterexample for C3 as literally stated: a blank query raises a
validation error instead of resolving through the tiers; a unique match
whose id is blank is an error, not a returned id; and the ambiguity error
lists display names when full names are empty, not the (empty) full names. -/
theorem C3_find_door_id_counterexample :
    find_door_id "" [⟨"x", "y", "1"⟩] = .error .doorNameRequired ∧
    find_door_id "gate" [⟨"gate", "", ""⟩] = .error .missingId ∧
    find_door_id "gate" [⟨"gate", "", "1"⟩, ⟨"gate", "", "2"⟩] =
      .error (.ambiguous ["gate", "gate"]) := by
  refine ⟨by decide, by decide, by decide⟩

/-! ## Unlock validation (client.py lines 77-97) -/

/-- The `ValueError` cases raised by `unlock_door` before any network
traffic. -/
inductive UnlockError where
  | doorIdRequired
  | actorPairMismatch
  deriving Repr, DecidableEq

/-- The HTTP request body assembled by `unlock_door` once validation has
passed: the actor pair if both parts were supplied, and the verbatim
`extra` payload if supplied.  Producing this value models reaching the
network call; every validation failure happens strictly before it. -/
structure UnlockRequest where
  door_id : String
  actor : Option (String × String)
  extra : Option (List (String × String))
  deriving Repr, DecidableEq

/-- `unlock_door` up to the point the request is handed to the transport:
an empty door id and a half-supplied actor pair are rejected first. -/
def unlock_door (door_id : String) (actor_id actor_name : Option String)
    (extra : Option (List (String × String))) : Except UnlockError UnlockRequest :=
  if door_id = "" then .error .doorIdRequired
  else
    let has_actor_id := actor_id.isSome
    let has_actor_name := actor_name.isSome
    if has_actor_id != has_actor_name then .error .actorPairMismatch
    else .ok ⟨door_id,
      match actor_id, actor_name with
      | some a, some n => some (a, n)
      | _, _ => none,
      extra⟩

/-! ### C6 -/

/-- C6: supplying exactly one of `actor_id` and `actor_name` fails with a
validation error before any network call (and with the actor-pair error
precisely whenever the door id itself is non-empty); when both or neither
are supplied the actor-pair validation error is never raised. -/
theorem C6_unlock_actor_pair (door_id : String)
    (actor_id actor_name : Option String)
    (extra : Option (List (String × String))) :
    (actor_id.isSome ≠ actor_name.isSome →
      ∃ e, unlock_door door_id actor_id actor_name extra = .error e) ∧
    (door_id ≠ "" → actor_id.isSome ≠ actor_name.isSome →
      unlock_door door_id actor_id actor_name extra = .error .actorPairMismatch) ∧
    (actor_id.isSome = actor_name.isSome →
      unlock_door door_id actor_id actor_name extra ≠ .error .actorPairMismatch) := by
  refine ⟨fun h => ?_, fun hd h => ?_, fun h => ?_⟩
  · unfold unlock_door
    by_cases hd : door_id = ""
    · exact ⟨.doorIdRequired, by rw [if_pos hd]⟩
    · refine ⟨.actorPairMismatch, ?_⟩
      rw [if_neg hd, if_pos]
      simp only [bne_iff_ne, ne_eq]
      exact h
  · unfold unlock_door
    rw [if_neg hd, if_pos]
    simp only [bne_iff_ne, ne_eq]
    exact h
  · unfold unlock_door
    by_cases hd : door_id = ""
    · rw [if_pos hd]; simp
    · rw [if_neg hd, if_neg (by simp [h])]
      simp

/-- Witness for C6 at concrete inputs. -/
theorem C6_unlock_actor_pair_witness :
    unlock_door "d1" (some "svc") none none = .error .actorPairMismatch ∧
    unlock_door "d1" (some "svc") (some "Svc Name") none ≠
      .error .actorPairMismatch := by
  constructor
  · exact (C6_unlock_actor_pair "d1" (some "svc") none none).2.1
      (by decide) (by decide)
  · exact (C6_unlock_actor_pair "d1" (some "svc") (some "Svc Name") none).2.2 rfl

/-! ## Dashboard access guard (webhook.py lines 231-255)

`ipaddress.ip_address` and `ipaddress.ip_network` are Python standard
library primitives; they are modelled below on the textual address grammar
Python accepts (dotted-quad IPv4 with no leading zeros, RFC 4291 IPv6 with
one optional `::` compression, an optional embedded IPv4 tail and an
optional non-empty `%zone` suffix), with addresses as plain `Nat`. -/

structure IpAddr where
  version : Nat
  value : Nat
  deriving Repr, DecidableEq

structure IpNetwork where
  version : Nat
  netaddr : Nat
  prefixLen : Nat
  deriving Repr, DecidableEq

/-- Python `str.split(sep)` for a non-empty separator, on character lists:
non-overlapping matches scanned left to right, with empty pieces kept at
boundaries.  The fuel argument (instantiated with the list length) only
makes the recursion structural; it never runs out. -/
def splitOnLFuel (sep : List Char) : Nat → List Char → List (List Char)
  | _, [] => [[]]
  | 0, l => [l]
  | fuel + 1, c :: rest =>
    if sep ≠ [] ∧ sep.isPrefixOf (c :: rest) then
      [] :: splitOnLFuel sep fuel ((c :: rest).drop sep.length)
    else match splitOnLFuel sep fuel rest with
      | [] => [[c]]
      | h :: t => (c :: h) :: t

/-- Python `str.split(sep)`. -/
def pySplitStr (sep s : String) : List String :=
  (splitOnLFuel sep.data s.data.length s.data).map String.mk

/-- Decimal value of a digit list. -/
def natOfDigits (cs : List Char) : Nat :=
  cs.foldl (fun a c => a * 10 + (c.toNat - 48)) 0

/-- One IPv4 octet: 1-3 ASCII digits, no ambiguous leading zero, at most
255. -/
def parseIPv4Part (s : String) : Option Nat :=
  let cs := s.data
  if cs = [] then none
  else if ¬ cs.all pyIsDigit then none
  else if 3 < cs.length then none
  else if cs.head? = some '0' ∧ 1 < cs.length then none
  else if 255 < natOfDigits cs then none
  else some (natOfDigits cs)

/-- A dotted-quad IPv4 address as a 32-bit value. -/
def parseIPv4 (s : String) : Option Nat :=
  match pySplitStr "." s with
  | [a, b, c, d] => do
    let x ← parseIPv4Part a
    let y ← parseIPv4Part b
    let z ← parseIPv4Part c
    let w ← parseIPv4Part d
    pure (x * 16777216 + y * 65536 + z * 256 + w)
  | _ => none

def isHexDigitChar (c : Char) : Bool :=
  (48 ≤ c.toNat && c.toNat ≤ 57) || (97 ≤ c.toNat && c.toNat ≤ 102) ||
  (65 ≤ c.toNat && c.toNat ≤ 70)

def hexVal (c : Char) : Nat :=
  if c.toNat ≤ 57 then c.toNat - 48
  else if 97 ≤ c.toNat then c.toNat - 87
  else c.toNat - 55

/-- One IPv6 hextet: 1-4 hex digits. -/
def parseHextet (s : String) : Option Nat :=
  let cs := s.data
  if cs = [] then none
  else if 4 < cs.length then none
  else if ¬ cs.all isHexDigitChar then none
  else some (cs.foldl (fun a c => a * 16 + hexVal c) 0)

/-- A colon-separated run of plain hextets. -/
def parseHextets : List String → Option (List Nat)
  | [] => some []
  | g :: rest => do
    let h ← parseHextet g
    let t ← parseHextets rest
    pure (h :: t)

/-- A colon-separated run of hextets whose final group may be an embedded
dotted-quad IPv4 address (worth two hextets). -/
def parseGroupList : List String → Option (List Nat)
  | [] => some []
  | [g] =>
    if g.data.contains '.' then
      (parseIPv4 g).map (fun v => [v / 65536, v % 65536])
    else (parseHextet g).map (fun h => [h])
  | g :: rest => do
    let h ← parseHextet g
    let t ← parseGroupList rest
    pure (h :: t)

def hextetsToNat (hs : List Nat) : Nat :=
  hs.foldl (fun a h => a * 65536 + h) 0

/-- An IPv6 address body: 8 hextets, or a single `::` compression standing
for at least one zero hextet. -/
def parseIPv6Core (s : String) : Option Nat :=
  match pySplitStr "::" s with
  | [only] => do
    let hs ← parseGroupList (pySplitStr ":" only)
    if hs.length = 8 then pure (hextetsToNat hs) else none
  | [left, right] => do
    let lh ← if left = "" then pure ([] : List Nat)
      else parseHextets (pySplitStr ":" left)
    let rh ← if right = "" then pure ([] : List Nat)
      else parseGroupList (pySplitStr ":" right)
    if lh.length + rh.length ≤ 7 then
      pure (hextetsToNat (lh ++ List.replicate (8 - lh.length - rh.length) 0 ++ rh))
    else none
  | _ => none

/-- An IPv6 address with an optional non-empty zone suffix. -/
def parseIPv6 (s : String) : Option Nat :=
  match pySplitStr "%" s with
  | [addr] => parseIPv6Core addr
  | [addr, zone] => if zone = "" then none else parseIPv6Core addr
  | _ => none

/-- `ipaddress.ip_address`: try IPv4 first, then IPv6. -/
def ip_address (s : String) : Option IpAddr :=
  match parseIPv4 s with
  | some v => some ⟨4, v⟩
  | none => (parseIPv6 s).map (fun v => ⟨6, v⟩)

def ipNetworkBits (n : IpNetwork) : Nat :=
  if n.version = 4 then 32 else 128

/-- `ip in network`: between the network address and the broadcast address
of the block. -/
def inNetwork (a : IpAddr) (n : IpNetwork) : Bool :=
  n.netaddr ≤ a.value &&
    a.value ≤ n.netaddr + 2 ^ (ipNetworkBits n - n.prefixLen) - 1

/-- The prefix length of a CIDR string: decimal digits, no leading zero,
at most the bit width. -/
def parsePrefixLen (s : String) (bits : Nat) : Option Nat :=
  let cs := s.data
  if cs = [] then none
  else if ¬ cs.all pyIsDigit then none
  else if cs.head? = some '0' ∧ 1 < cs.length then none
  else if bits < natOfDigits cs then none
  else some (natOfDigits cs)

/-- `ipaddress.ip_network(..., strict=False)`: parse the address and the
prefix, and zero the host bits. -/
def ip_network (s : String) : Option IpNetwork :=
  match pySplitStr "/" s with
  | [addr] =>
    (ip_address addr).map
      (fun a => ⟨a.version, a.value, if a.version = 4 then 32 else 128⟩)
  | [addr, plen] => do
    let a ← ip_address addr
    let bits := if a.version = 4 then 32 else 128
    let p ← parsePrefixLen plen bits
    pure ⟨a.version, a.value >>> (bits - p) <<< (bits - p), p⟩
  | _ => none

/-- `is_ip_allowed`: strip and parse the remote address; allowed when some
configured block of the same address family contains it; unparsable
addresses are denied. -/
def is_ip_allowed (ip_text : String) (networks : List IpNetwork) : Bool :=
  match ip_address (pyStrip ip_text) with
  | none => false
  | some a => networks.any (fun n => a.version == n.version && inNetwork a n)

/-! ### C7 -/

/-- C7: the guard allows an address exactly when it parses and lies in a
same-family configured block; a family mismatch never matches a block; an
unparsable address is always denied; and the three concrete examples under
the blocks 127.0.0.1/32 and 192.168.0.0/16 evaluate as specified. -/
theorem C7_is_ip_allowed_spec (s : String) (networks : List IpNetwork) :
    (is_ip_allowed s networks = true ↔
      ∃ a, ip_address (pyStrip s) = some a ∧
        ∃ n ∈ networks, a.version = n.version ∧ inNetwork a n = true) ∧
    (ip_address (pyStrip s) = none → is_ip_allowed s networks = false) ∧
    (∀ a n, a.version ≠ n.version →
      (a.version == n.version && inNetwork a n) = false) ∧
    (ip_network "127.0.0.1/32" = some ⟨4, 2130706433, 32⟩ ∧
     ip_network "192.168.0.0/16" = some ⟨4, 3232235520, 16⟩ ∧
     is_ip_allowed "127.0.0.1" [⟨4, 2130706433, 32⟩, ⟨4, 3232235520, 16⟩] = true ∧
     is_ip_allowed "192.168.2.25" [⟨4, 2130706433, 32⟩, ⟨4, 3232235520, 16⟩] = true ∧
     is_ip_allowed "8.8.8.8" [⟨4, 2130706433, 32⟩, ⟨4, 3232235520, 16⟩] = false) := by
  refine ⟨?_, fun h => ?_, fun a n h => ?_, by decide, by decide, by decide,
    by decide, by decide⟩
  · unfold is_ip_allowed
    cases hp : ip_address (pyStrip s) with
    | none =>
      constructor
      · intro h
        exact absurd h (by simp)
      · rintro ⟨a, ha, -⟩
        exact absurd ha (by simp)
    | some a =>
      simp only [List.any_eq_true, Bool.and_eq_true, beq_iff_eq]
      constructor
      · rintro ⟨n, hn, hv, hm⟩
        exact ⟨a, rfl, n, hn, hv, hm⟩
      · rintro ⟨a', ha', n, hn, hv, hm⟩
        obtain rfl : a = a' := Option.some.inj ha'
        exact ⟨n, hn, hv, hm⟩
  · unfold is_ip_allowed
    rw [h]
  · simp only [Bool.and_eq_false_iff, beq_eq_false_iff_ne, ne_eq]
    exact Or.inl h

/-- Witness for C7: the unparsable-address clause at a concrete input, and
the family-mismatch clause for a v6 address against a v4 block. -/
theorem C7_is_ip_allowed_spec_witness :
    is_ip_allowed "8.8.8.8.8" [⟨4, 2130706433, 32⟩] = false ∧
    ((⟨6, 1⟩ : IpAddr).version == (⟨4, 2130706433, 32⟩ : IpNetwork).version &&
      inNetwork ⟨6, 1⟩ ⟨4, 2130706433, 32⟩) = false := by
  constructor
  · exact (C7_is_ip_allowed_spec "8.8.8.8.8" [⟨4, 2130706433, 32⟩]).2.1 (by decide)
  · exact (C7_is_ip_allowed_spec "" []).2.2.1 ⟨6, 1⟩ ⟨4, 2130706433, 32⟩ (by decide)

/-! ## Python values and `load_allowed_callers` (webhook.py lines 155-187)

Parsed config data is modelled by a small universe of Python values:
strings, booleans, integers, lists and dicts; other scalars (dates, times)
appear as `vother` carrying their `str()` rendering and are truthy.  File
reading is outside the embedding: `load_allowed_callers` takes the parsed
top-level dict. -/

inductive PyVal where
  | vstr (s : String)
  | vbool (b : Bool)
  | vint (n : Int)
  | vlist (xs : List PyVal)
  | vdict (entries : List (String × PyVal))
  | vother (text : String)

/-- Python `repr`, to the precision the claims need (string escaping
inside `repr` is not modelled). -/
def pyRepr : PyVal → String
  | .vstr s => "\x27" ++ s ++ "\x27"
  | .vbool b => if b then "True" else "False"
  | .vint n => toString n
  | .vlist xs => "[" ++ String.intercalate ", "
      (xs.attach.map (fun x => pyRepr x.1)) ++ "]"
  | .vdict es => "\x7b" ++ String.intercalate ", "
      (es.attach.map (fun kv => "\x27" ++ kv.1.1 ++ "\x27: " ++ pyRepr kv.1.2)) ++
      "\x7d"
  | .vother t => t
decreasing_by
  · have := List.sizeOf_lt_of_mem x.2
    simp only [PyVal.vlist.sizeOf_spec]
    omega
  · have h1 := List.sizeOf_lt_of_mem kv.2
    have h2 : sizeOf kv.1.2 < sizeOf kv.1 := by
      obtain ⟨a, b⟩ := kv.1
      simp
    simp only [PyVal.vdict.sizeOf_spec]
    omega

/-- Python `str()`. -/
def pyStr : PyVal → String
  | .vstr s => s
  | v => pyRepr v

/-- Python truthiness (`bool(...)`). -/
def pyBool : PyVal → Bool
  | .vstr s => s ≠ ""
  | .vbool b => b
  | .vint n => n ≠ 0
  | .vlist xs => ¬ xs.isEmpty
  | .vdict es => ¬ es.isEmpty
  | .vother _ => true

/-- `dict.get(k, default)`. -/
def pyDictGetD (es : List (String × PyVal)) (k : String) (d : PyVal) : PyVal :=
  match es.find? (fun kv => kv.1 == k) with
  | some kv => kv.2
  | none => d

/-- Whether a parsed entry is a key-value record (`isinstance(entry, dict)`). -/
def isRecord : PyVal → Bool
  | .vdict _ => true
  | _ => false

/-- The body of the entry loop of `load_allowed_callers`: skip non-dict
entries and entries whose number normalizes to the empty string, otherwise
build the `AllowedCaller`. -/
def entryToCaller : PyVal → Option AllowedCaller
  | .vdict es =>
    let number := normalize_phone (pyStrip (pyStr (pyDictGetD es "number" (.vstr ""))))
    if number = "" then none
    else some
      { number := number
        name := pyStrip (pyStr (pyDictGetD es "name" (.vstr "")))
        enabled := pyBool (pyDictGetD es "enabled" (.vbool true))
        notes := pyStrip (pyStr (pyDictGetD es "notes" (.vstr ""))) }
  | _ => none

/-- `load_allowed_callers` on the parsed dict: demand a list under the
`callers` key (else the `ValueError`), then collect the surviving entries
in order. -/
def load_allowed_callers (parsed : List (String × PyVal)) :
    Except Unit (List AllowedCaller) :=
  match (parsed.find? (fun kv => kv.1 == "callers")).map (fun kv => kv.2) with
  | some (PyVal.vlist raw_callers) => .ok (raw_callers.filterMap entryToCaller)
  | _ => .error ()

/-! ### C10 -/

/-- C10: every caller in a successfully loaded snapshot has a non-empty,
already-canonical number; a `callers` list always loads successfully
whatever its entries; and non-record entries and entries whose number
normalizes to the empty string are skipped (mapped to nothing) rather than
loaded or reported. -/
theorem C10_load_allowed_callers_invariant (parsed : List (String × PyVal)) :
    (∀ cs, load_allowed_callers parsed = .ok cs →
      ∀ a ∈ cs, a.number ≠ "" ∧ normalize_phone a.number = a.number) ∧
    (∀ raw_callers,
      (parsed.find? (fun kv => kv.1 == "callers")).map (fun kv => kv.2) =
        some (PyVal.vlist raw_callers) →
      load_allowed_callers parsed = .ok (raw_callers.filterMap entryToCaller)) ∧
    (∀ es, normalize_phone (pyStrip (pyStr (pyDictGetD es "number" (.vstr "")))) = "" →
      entryToCaller (.vdict es) = none) ∧
    (∀ e, isRecord e = false → entryToCaller e = none) := by
  refine ⟨fun cs hcs a ha => ?_, fun raw h => ?_, fun es h => ?_, fun e h => ?_⟩
  · unfold load_allowed_callers at hcs
    rcases hfind : (parsed.find? (fun kv => kv.1 == "callers")).map
        (fun kv => kv.2) with _ | v
    · rw [hfind] at hcs
      exact absurd hcs (by simp)
    · rw [hfind] at hcs
      cases v with
      | vlist raw =>
        have hcs' : raw.filterMap entryToCaller = cs := by
          have := hcs
          simp only [Except.ok.injEq] at this
          exact this
        rw [← hcs'] at ha
        obtain ⟨e, -, he⟩ := List.mem_filterMap.mp ha
        cases e with
        | vdict es =>
          simp only [entryToCaller] at he
          by_cases hnum : normalize_phone
              (pyStrip (pyStr (pyDictGetD es "number" (.vstr "")))) = ""
          · rw [if_pos hnum] at he
            exact absurd he (by simp)
          · rw [if_neg hnum] at he
            have ha' : a.number = normalize_phone
                (pyStrip (pyStr (pyDictGetD es "number" (.vstr "")))) := by
              have := Option.some.inj he
              rw [← this]
            constructor
            · rw [ha']; exact hnum
            · rw [ha']; exact normalize_phone_idem _
        | vstr s => exact absurd he (by simp [entryToCaller])
        | vbool b => exact absurd he (by simp [entryToCaller])
        | vint n => exact absurd he (by simp [entryToCaller])
        | vlist xs => exact absurd he (by simp [entryToCaller])
        | vother t => exact absurd he (by simp [entryToCaller])
      | vstr s => exact absurd hcs (by simp)
      | vbool b => exact absurd hcs (by simp)
      | vint n => exact absurd hcs (by simp)
      | vdict es => exact absurd hcs (by simp)
      | vother t => exact absurd hcs (by simp)
  · unfold load_allowed_callers
    rw [h]
  · simp only [entryToCaller]
    rw [if_pos h]
  · cases e with
    | vdict es => exact absurd h (by simp [isRecord])
    | vstr s => rfl
    | vbool b => rfl
    | vint n => rfl
    | vlist xs => rfl
    | vother t => rfl

/-- Witness for C10: a concrete load with one valid entry, one non-record
entry and one digit-free entry. -/
theorem C10_load_allowed_callers_invariant_witness :
    load_allowed_callers
      [("callers", .vlist [.vstr "junk",
        .vdict [("number", .vstr "+1 (707) 555-1111")],
        .vdict [("number", .vstr "abc")]])] =
      .ok [⟨"+17075551111", "", true, ""⟩] ∧
    ("+17075551111" : String) ≠ "" ∧
    normalize_phone "+17075551111" = "+17075551111" ∧
    entryToCaller (.vstr "junk") = none ∧
    entryToCaller (.vdict [("number", .vstr "abc")]) = none := by
  have hload := (C10_load_allowed_callers_invariant
    [("callers", .vlist [.vstr "junk",
      .vdict [("number", .vstr "+1 (707) 555-1111")],
      .vdict [("number", .vstr "abc")]])]).2.1
    [.vstr "junk", .vdict [("number", .vstr "+1 (707) 555-1111")],
      .vdict [("number", .vstr "abc")]] rfl
  have hinv := (C10_load_allowed_callers_invariant
    [("callers", .vlist [.vstr "junk",
      .vdict [("number", .vstr "+1 (707) 555-1111")],
      .vdict [("number", .vstr "abc")]])]).1
    [⟨"+17075551111", "", true, ""⟩]
    (by rw [hload]; decide) ⟨"+17075551111", "", true, ""⟩ (by decide)
  refine ⟨by rw [hload]; decide, hinv.1, hinv.2, ?_, ?_⟩
  · exact (C10_load_allowed_callers_invariant []).2.2.2 (.vstr "junk") (by decide)
  · exact (C10_load_allowed_callers_invariant []).2.2.1
      [("number", .vstr "abc")] (by decide)

/-! ## Fallback config parser (webhook.py lines 190-216)

`_parse_simple_callers_toml` scans lines and fills `[[callers]]` records.
Its output (the `callers` list) is compared against a model of a standard
TOML parser restricted to the documented grammar. -/

/-- The line terminators Python `str.splitlines()` honors besides `\r\n`:
`\n`, `\r`, `\v` (11), `\f` (12), the separators 28-30, `\x85`, and the
Unicode line and paragraph separators 8232 and 8233. -/
def pySplitTerm (c : Char) : Bool :=
  c.toNat == 10 || c.toNat == 13 || c.toNat == 11 || c.toNat == 12 ||
  c.toNat == 28 || c.toNat == 29 || c.toNat == 30 || c.toNat == 133 ||
  c.toNat == 8232 || c.toNat == 8233

/-- Python `str.splitlines()`: split at every terminator, treating `\r\n`
as one; no piece is produced after a trailing terminator. -/
def pySplitlinesGo (cur : List Char) : List Char → List (List Char)
  | [] => if cur.isEmpty then [] else [cur]
  | '\r' :: '\n' :: rest => cur :: pySplitlinesGo [] rest
  | c :: rest =>
    if pySplitTerm c then cur :: pySplitlinesGo [] rest
    else pySplitlinesGo (cur ++ [c]) rest

/-- Python `str.splitlines()`. -/
def pySplitlines (s : String) : List String :=
  (pySplitlinesGo [] s.data).map String.mk

inductive SimpleVal where
  | vstr (s : String)
  | vbool (b : Bool)
  deriving Repr, DecidableEq

/-- One parsed `[[callers]]` record, as an insertion-ordered dict. -/
abbrev SimpleRecord := List (String × SimpleVal)

/-- Python dict assignment `current[k] = v`: replace in place when the key
exists, append otherwise. -/
def recordSet (r : SimpleRecord) (k : String) (v : SimpleVal) : SimpleRecord :=
  if r.any (fun kv => kv.1 == k) then
    r.map (fun kv => if kv.1 == k then (kv.1, v) else kv)
  else r ++ [(k, v)]

/-- `line.startswith("#")`. -/
def startsWithHash : List Char → Bool
  | '#' :: _ => true
  | _ => false

/-- `line.split("=", 1)` when `"=" in line`: the text before the first `=`
and everything after it. -/
def splitFirstEq : List Char → Option (List Char × List Char)
  | [] => none
  | c :: rest =>
    if c = '=' then some ([], rest)
    else match splitFirstEq rest with
      | none => none
      | some (k, v) => some (c :: k, v)

/-- The value branch of the fallback parser: quoted strings lose their
quotes, `true`/`false` (case-insensitively) become booleans, anything else
is stored as the raw string. -/
def parseSimpleValue (v : String) : SimpleVal :=
  if v.data.head? = some '"' ∧ v.data.getLast? = some '"' ∧ 2 ≤ v.data.length then
    .vstr ⟨(v.data.drop 1).dropLast⟩
  else if pyLower v = "true" ∨ pyLower v = "false" then
    .vbool (pyLower v == "true")
  else .vstr v

/-- The line loop of `_parse_simple_callers_toml`, with the dict being
filled carried explicitly and flushed at each header and at the end. -/
def parseSimpleGo (done : List SimpleRecord) (cur : Option SimpleRecord) :
    List String → List SimpleRecord
  | [] => done ++ cur.toList
  | rawLine :: rest =>
    if pyStrip rawLine = "" ∨ startsWithHash (pyStrip rawLine).data = true then
      parseSimpleGo done cur rest
    else if pyStrip rawLine = "[[callers]]" then
      parseSimpleGo (done ++ cur.toList) (some []) rest
    else match cur with
      | none => parseSimpleGo done none rest
      | some r =>
        match splitFirstEq (pyStrip rawLine).data with
        | none => parseSimpleGo done (some r) rest
        | some (k0, v0) =>
          parseSimpleGo done
            (some (recordSet r (pyStrip ⟨k0⟩) (parseSimpleValue (pyStrip ⟨v0⟩))))
            rest

/-- `_parse_simple_callers_toml`, returning the `callers` list of the
produced dict. -/
def parse_simple_callers_toml (text : String) : List SimpleRecord :=
  parseSimpleGo [] none (pySplitlines text)

/-- A TOML bare-key character. -/
def bareKeyChar (c : Char) : Bool :=
  pyIsDigit c || (65 ≤ c.toNat && c.toNat ≤ 90) ||
  (97 ≤ c.toNat && c.toNat ≤ 122) || c == '-' || c == '_'

/-- A character a TOML basic string admits unescaped: horizontal tab, a
printable ASCII character other than the quote and the backslash, or a
non-ASCII character.  Control characters (including delete) are rejected,
as real TOML rejects them. -/
def tomlStringChar (c : Char) : Bool :=
  c.toNat == 9 ||
  (32 ≤ c.toNat && c.toNat ≤ 126 && !(c == '"') && !(c == '\\')) ||
  128 ≤ c.toNat

/-- Modelled from the spec: the value grammar a standard TOML parser
accepts within the documented restricted grammar: a basic string without
escapes, inner quotes or control characters, or a lowercase boolean
literal. -/
def tomlValue (v : String) : Option SimpleVal :=
  if v.data.head? = some '"' ∧ v.data.getLast? = some '"' ∧ 2 ≤ v.data.length ∧
      (v.data.drop 1).dropLast.all tomlStringChar then
    some (.vstr ⟨(v.data.drop 1).dropLast⟩)
  else if v = "true" then some (.vbool true)
  else if v = "false" then some (.vbool false)
  else none

/-- Modelled from the spec: a `key = value` line of the restricted grammar,
with a non-empty bare key. -/
def tomlAssign (line : String) : Option (String × SimpleVal) :=
  match splitFirstEq line.data with
  | none => none
  | some (k0, v0) =>
    if pyStrip ⟨k0⟩ ≠ "" ∧ (pyStrip ⟨k0⟩).data.all bareKeyChar then
      match tomlValue (pyStrip ⟨v0⟩) with
      | none => none
      | some val => some (pyStrip ⟨k0⟩, val)
    else none

/-- Modelled from the spec: the line loop of a standard TOML parser on the
restricted grammar (`[[callers]]` array-of-tables headers, assignments,
blank lines, comments).  Assignments outside a record, malformed lines and
duplicate keys are outside the grammar and rejected.  The result mirrors
the parsed dict: `none` when no `[[callers]]` header appeared (the dict
has no `callers` key), `some` with the record list otherwise. -/
def tomlGo (done : List SimpleRecord) (cur : Option SimpleRecord) :
    List String → Option (Option (List SimpleRecord))
  | [] => some (cur.map (fun r => done ++ [r]))
  | rawLine :: rest =>
    if pyStrip rawLine = "" ∨ startsWithHash (pyStrip rawLine).data = true then
      tomlGo done cur rest
    else if pyStrip rawLine = "[[callers]]" then
      tomlGo (done ++ cur.toList) (some []) rest
    else match tomlAssign (pyStrip rawLine) with
      | none => none
      | some (k, v) =>
        match cur with
        | none => none
        | some r =>
          if r.any (fun kv => kv.1 == k) then none
          else tomlGo done (some (r ++ [(k, v)])) rest

/-- Whether a character is legal in a restricted-grammar text outside the
`\r\n` pair: tab, `\n`, printable ASCII, or a non-ASCII character that is
not one of the line terminators Python honors but TOML does not.  This
keeps every text on which Python `str.splitlines` (used by the fallback)
and TOML line splitting disagree, and every text with control characters
a real TOML parser rejects, out of the modelled grammar. -/
def tomlTextOk : List Char → Bool
  | [] => true
  | '\r' :: '\n' :: rest => tomlTextOk rest
  | c :: rest =>
    (c.toNat == 9 || c.toNat == 10 || (32 ≤ c.toNat && c.toNat ≤ 126) ||
      (128 ≤ c.toNat && c.toNat != 133 && c.toNat != 8232 &&
        c.toNat != 8233)) &&
    tomlTextOk rest

/-- Modelled from the spec: the full restricted TOML parse of a config
text; defined (`some`) exactly on texts inside the documented grammar, and
there carrying the `callers` array when at least one `[[callers]]` header
appeared, or `none` for the key-less dict a standard parser produces on a
record-free text. -/
def toml_restricted_parse (text : String) :
    Option (Option (List SimpleRecord)) :=
  if tomlTextOk text.data then tomlGo [] none (pySplitlines text) else none

def simpleValToPy : SimpleVal → PyVal
  | .vstr s => .vstr s
  | .vbool b => .vbool b

/-- The parsed dict `{"callers": [...]}` the fallback parser always
returns, and a standard parser returns when at least one header appeared. -/
def recordsToParsed (rs : List SimpleRecord) : List (String × PyVal) :=
  [("callers", .vlist (rs.map (fun r => .vdict (r.map (fun kv =>
    (kv.1, simpleValToPy kv.2))))))]

/-- The parsed dict of the standard-parser model: empty (no `callers` key)
on a record-free text, `{"callers": [...]}` otherwise. -/
def parsedOfToml : Option (List SimpleRecord) → List (String × PyVal)
  | none => []
  | some rs => recordsToParsed rs

/-! ### Equivalence lemmas -/

theorem recordSet_of_not_mem (r : SimpleRecord) (k : String) (v : SimpleVal)
    (h : r.any (fun kv => kv.1 == k) = false) :
    recordSet r k v = r ++ [(k, v)] := by
  unfold recordSet
  rw [if_neg (by simp [h])]

theorem parseSimpleValue_of_tomlValue (v : String) (val : SimpleVal)
    (h : tomlValue v = some val) : parseSimpleValue v = val := by
  unfold tomlValue at h
  by_cases hq : v.data.head? = some '"' ∧ v.data.getLast? = some '"' ∧
      2 ≤ v.data.length ∧
      (v.data.drop 1).dropLast.all tomlStringChar = true
  · rw [if_pos hq] at h
    unfold parseSimpleValue
    rw [if_pos ⟨hq.1, hq.2.1, hq.2.2.1⟩]
    exact Option.some.inj h
  · rw [if_neg hq] at h
    by_cases ht : v = "true"
    · rw [if_pos ht] at h
      subst ht
      rw [← Option.some.inj h]
      decide
    · rw [if_neg ht] at h
      by_cases hf : v = "false"
      · rw [if_pos hf] at h
        subst hf
        rw [← Option.some.inj h]
        decide
      · rw [if_neg hf] at h
        exact absurd h (by simp)

theorem tomlAssign_inv (line : String) (k : String) (v : SimpleVal)
    (h : tomlAssign line = some (k, v)) :
    ∃ k0 v0, splitFirstEq line.data = some (k0, v0) ∧ pyStrip ⟨k0⟩ = k ∧
      tomlValue (pyStrip ⟨v0⟩) = some v := by
  unfold tomlAssign at h
  cases hs : splitFirstEq line.data with
  | none =>
    rw [hs] at h
    exact absurd h (by simp)
  | some kv =>
    obtain ⟨k0, v0⟩ := kv
    rw [hs] at h
    simp only [] at h
    by_cases hc : pyStrip ⟨k0⟩ ≠ "" ∧ (pyStrip ⟨k0⟩).data.all bareKeyChar = true
    · rw [if_pos hc] at h
      cases hv : tomlValue (pyStrip ⟨v0⟩) with
      | none =>
        rw [hv] at h
        exact absurd h (by simp)
      | some val =>
        rw [hv] at h
        have hkv := Option.some.inj h
        obtain ⟨hk, hval⟩ := Prod.mk.injEq _ _ _ _ ▸ hkv
        exact ⟨k0, v0, rfl, hk, by rw [hv, hval]⟩
    · rw [if_neg hc] at h
      exact absurd h (by simp)

/-- Once a `[[callers]]` header has been seen, the TOML model never
reports the key-less dict. -/
theorem tomlGo_some_of_cur_some (lines : List String) :
    ∀ (done : List SimpleRecord) (r : SimpleRecord)
      (top : Option (List SimpleRecord)),
      tomlGo done (some r) lines = some top → ∃ recs, top = some recs := by
  induction lines with
  | nil =>
    intro done r top h
    simp only [tomlGo] at h
    exact ⟨done ++ [r], (Option.some.inj h).symm⟩
  | cons l rest ih =>
    intro done r top h
    simp only [tomlGo] at h
    by_cases h1 : pyStrip l = "" ∨ startsWithHash (pyStrip l).data = true
    · rw [if_pos h1] at h
      exact ih done r top h
    · rw [if_neg h1] at h
      by_cases h2 : pyStrip l = "[[callers]]"
      · rw [if_pos h2] at h
        exact ih (done ++ [r]) [] top h
      · rw [if_neg h2] at h
        cases hassign : tomlAssign (pyStrip l) with
        | none =>
          rw [hassign] at h
          exact absurd h (by simp)
        | some kv =>
          obtain ⟨k, v⟩ := kv
          rw [hassign] at h
          have h' : (if (r.any fun kv => kv.1 == k) = true then none
              else tomlGo done (some (r ++ [(k, v)])) rest) = some top := h
          by_cases hdup : r.any (fun kv => kv.1 == k) = true
          · rw [if_pos hdup] at h'
            exact absurd h' (by simp)
          · rw [if_neg hdup] at h'
            exact ih done (r ++ [(k, v)]) top h'

/-- On every line list accepted by the TOML model, the fallback scanner
computes, from the same state, the record list the model carries (or the
running `done` list when the model saw no header and reports the key-less
dict). -/
theorem tomlGo_agrees (lines : List String) :
    ∀ (done : List SimpleRecord) (cur : Option SimpleRecord)
      (top : Option (List SimpleRecord)),
      tomlGo done cur lines = some top →
      parseSimpleGo done cur lines =
        (match top with | none => done | some recs => recs) := by
  induction lines with
  | nil =>
    intro done cur top h
    simp only [tomlGo] at h
    have h' := Option.some.inj h
    cases cur with
    | none =>
      rw [← h']
      simp [parseSimpleGo]
    | some r =>
      rw [← h']
      simp [parseSimpleGo]
  | cons l rest ih =>
    intro done cur top h
    simp only [tomlGo] at h
    simp only [parseSimpleGo]
    by_cases h1 : pyStrip l = "" ∨ startsWithHash (pyStrip l).data = true
    · rw [if_pos h1] at h ⊢
      exact ih done cur top h
    · rw [if_neg h1] at h ⊢
      by_cases h2 : pyStrip l = "[[callers]]"
      · rw [if_pos h2] at h ⊢
        obtain ⟨recs, rfl⟩ := tomlGo_some_of_cur_some rest (done ++ cur.toList)
          [] top h
        exact ih (done ++ cur.toList) (some []) (some recs) h
      · rw [if_neg h2] at h ⊢
        cases hassign : tomlAssign (pyStrip l) with
        | none =>
          rw [hassign] at h
          exact absurd h (by simp)
        | some kv =>
          obtain ⟨k, v⟩ := kv
          rw [hassign] at h
          cases cur with
          | none => exact absurd h (by simp)
          | some r =>
            have h' : (if (r.any fun kv => kv.1 == k) = true then none
                else tomlGo done (some (r ++ [(k, v)])) rest) = some top := h
            by_cases hdup : r.any (fun kv => kv.1 == k) = true
            · rw [if_pos hdup] at h'
              exact absurd h' (by simp)
            · rw [if_neg hdup] at h'
              have hdup' : r.any (fun kv => kv.1 == k) = false := by
                cases hb : r.any (fun kv => kv.1 == k) with
                | false => rfl
                | true => exact absurd hb hdup
              obtain ⟨k0, v0, hsplit, hk, hv⟩ := tomlAssign_inv _ _ _ hassign
              obtain ⟨recs, rfl⟩ := tomlGo_some_of_cur_some rest done
                (r ++ [(k, v)]) top h'
              show (match splitFirstEq (pyStrip l).data with
                | none => parseSimpleGo done (some r) rest
                | some (k0, v0) =>
                  parseSimpleGo done
                    (some (recordSet r (pyStrip ⟨k0⟩)
                      (parseSimpleValue (pyStrip ⟨v0⟩)))) rest) = recs
              rw [hsplit]
              show parseSimpleGo done
                (some (recordSet r (pyStrip ⟨k0⟩)
                  (parseSimpleValue (pyStrip ⟨v0⟩)))) rest = recs
              rw [hk, parseSimpleValue_of_tomlValue _ _ hv,
                recordSet_of_not_mem r k v hdup']
              exact ih done (some (r ++ [(k, v)])) (some recs) h'

/-! ### C9 -/

/-- C9 (amended): on every config text inside the documented restricted
grammar on which at least one `[[callers]]` record appears, the fallback
hand-rolled parser produces the same callers structure, and hence the same
loaded `AllowedCaller` sequence, as a standard TOML parser.  On in-grammar
texts with no record the two diverge: the standard parser produces a dict
without the `callers` key, so the load fails, while the fallback produces
an empty callers list and the load succeeds empty. -/
theorem C9_fallback_parser_equiv (text : String)
    (top : Option (List SimpleRecord))
    (h : toml_restricted_parse text = some top) :
    (∀ recs, top = some recs →
      parse_simple_callers_toml text = recs ∧
      load_allowed_callers (recordsToParsed (parse_simple_callers_toml text)) =
        load_allowed_callers (parsedOfToml top)) ∧
    (top = none →
      parse_simple_callers_toml text = [] ∧
      load_allowed_callers (parsedOfToml top) = .error () ∧
      load_allowed_callers (recordsToParsed (parse_simple_callers_toml text)) =
        .ok []) := by
  have hgo : tomlGo [] none (pySplitlines text) = some top := by
    unfold toml_restricted_parse at h
    by_cases hok : tomlTextOk text.data = true
    · rw [if_pos hok] at h
      exact h
    · rw [if_neg hok] at h
      exact absurd h (by simp)
  have hagree := tomlGo_agrees (pySplitlines text) [] none top hgo
  constructor
  · intro recs hrecs
    subst hrecs
    have h1 : parse_simple_callers_toml text = recs := hagree
    refine ⟨h1, ?_⟩
    rw [h1]
    rfl
  · intro hnone
    subst hnone
    have h1 : parse_simple_callers_toml text = [] := hagree
    refine ⟨h1, rfl, ?_⟩
    rw [h1]
    rfl

/-- Witness for C9 on a concrete two-record config text. -/
theorem C9_fallback_parser_equiv_witness :
    toml_restricted_parse
      ("# gate callers\n[[callers]]\nnumber = \"+17075551111\"\nname = \"Oren\"\nenabled = true\n\n[[callers]]\nnumber = \"+17075552222\"\nenabled = false\n") =
      some (some [[("number", .vstr "+17075551111"), ("name", .vstr "Oren"),
        ("enabled", .vbool true)],
        [("number", .vstr "+17075552222"), ("enabled", .vbool false)]]) ∧
    parse_simple_callers_toml
      ("# gate callers\n[[callers]]\nnumber = \"+17075551111\"\nname = \"Oren\"\nenabled = true\n\n[[callers]]\nnumber = \"+17075552222\"\nenabled = false\n") =
      [[("number", .vstr "+17075551111"), ("name", .vstr "Oren"),
        ("enabled", .vbool true)],
        [("number", .vstr "+17075552222"), ("enabled", .vbool false)]] := by
  have ht : toml_restricted_parse
      ("# gate callers\n[[callers]]\nnumber = \"+17075551111\"\nname = \"Oren\"\nenabled = true\n\n[[callers]]\nnumber = \"+17075552222\"\nenabled = false\n") =
      some (some [[("number", .vstr "+17075551111"), ("name", .vstr "Oren"),
        ("enabled", .vbool true)],
        [("number", .vstr "+17075552222"), ("enabled", .vbool false)]]) := by
    decide
  exact ⟨ht, ((C9_fallback_parser_equiv _ _ ht).1 _ rfl).1⟩

/-- Counterexample for C9 as stated: a comments-and-blank-lines-only text
is inside the documented restricted grammar, yet a standard TOML parser
yields a dict without the `callers` key, on which `load_allowed_callers`
fails with the `ValueError`, while the fallback parser yields the dict
with an empty callers list, on which the load succeeds with an empty
allow-list — the callers structures and the loaded sequences differ. -/
theorem C9_fallback_parser_counterexample :
    toml_restricted_parse "# no callers yet\n\n" = some none ∧
    parse_simple_callers_toml "# no callers yet\n\n" = [] ∧
    parsedOfToml none ≠ recordsToParsed [] ∧
    load_allowed_callers (parsedOfToml none) = .error () ∧
    load_allowed_callers (recordsToParsed []) = .ok [] := by
  refine ⟨by decide, by decide, ?_, rfl, rfl⟩
  intro hcontra
  exact absurd (congrArg List.length hcontra) (by decide)

/-! ## The call-flow handler (webhook.py lines 433-558)

`do_POST` is modelled as a function from the request and the outcomes of
the three external effects (allow-list file load, controller door listing,
unlock transport) to the ordered list of observable actions it performs:
ledger writes, the HTTP response, and the outbound unlock call. -/

/-- The subset of `WebhookConfig` the POST handler reads.  Ports, timeouts
and the TLS toggle only configure the transport and do not appear in the
action trace. -/
structure WebhookConfig where
  door_name : String := "Gate"
  actor_id : String := "phone-gate-bridge"
  actor_name : String := "Phone Gate Bridge"
  allowed_callers_file : String := "/etc/phone-gate-bridge/allowed-callers.toml"
  twilio_auth_token : String := ""
  public_base_url : String := ""
  twilio_tts_voice : String := "Polly.Joanna-Neural"
  deriving Repr, DecidableEq

/-- One inbound POST request: the URL path, the parsed form body, and the
signature header. -/
structure TwilioRequest where
  path : String
  form : List (String × List String)
  signature : Option String
  deriving Repr, DecidableEq

/-- Outcomes of the external effects during one request: the allow-list
reload (`OSError`/`ValueError` collapse into the error case), the
controller `list_doors` call, and the transport leg of the unlock call. -/
structure ExternalOutcomes where
  loadResult : Except Unit (List AllowedCaller)
  doorsResult : Except Unit (List Door)
  unlockOk : Bool
  deriving Repr, DecidableEq

/-- One observable action of the handler, in execution order. -/
inductive Action where
  | record (event detail caller call_sid : String)
  | sendXmlSay (status : Nat) (message voice : String)
  | sendXmlGather (status : Nat) (prompt action_path voice : String)
  | sendPlain (status : Nat) (body : String)
  | unlockCall (door_id actor_id actor_name : String)
      (extra : List (String × String))
  deriving Repr, DecidableEq

/-- `form.get(key, [""])[0]` (`parse_qs` never produces empty value
lists). -/
def formGet (form : List (String × List String)) (k : String) : String :=
  match form.find? (fun kv => kv.1 == k) with
  | some kv => kv.2.headD ""
  | none => ""

/-- The `unlock_failed` branch: record, then the spoken failure message. -/
def unlockFailedActions (cfg : WebhookConfig) (from_number call_sid : String) :
    List Action :=
  [.record "unlock_failed" cfg.door_name from_number call_sid,
   .sendXmlSay 200 "Unable to open the gate right now. Please try again."
     cfg.twilio_tts_voice]

/-- The resolve-and-unlock block of the confirm leg, with
`AccessApiError`/`ValueError` from any stage collapsing into the
`unlock_failed` branch. -/
def unlockFlow (cfg : WebhookConfig) (ext : ExternalOutcomes)
    (from_number call_sid digit : String) (allowed_caller : AllowedCaller) :
    List Action :=
  match ext.doorsResult with
  | .error _ => unlockFailedActions cfg from_number call_sid
  | .ok doors =>
    match find_door_id cfg.door_name doors with
    | .error _ => unlockFailedActions cfg from_number call_sid
    | .ok door_id =>
      match unlock_door door_id (some cfg.actor_id) (some cfg.actor_name)
          (some [("source", "twilio-voice"), ("from", from_number),
            ("call_sid", call_sid), ("digit", digit),
            ("caller_name", allowed_caller.name)]) with
      | .error _ => unlockFailedActions cfg from_number call_sid
      | .ok _ =>
        .unlockCall door_id cfg.actor_id cfg.actor_name
          [("source", "twilio-voice"), ("from", from_number),
            ("call_sid", call_sid), ("digit", digit),
            ("caller_name", allowed_caller.name)] ::
        (if ext.unlockOk then
          [.sendXmlSay 200 "The gate is now open." cfg.twilio_tts_voice,
           .record "unlock_success" cfg.door_name from_number call_sid]
        else unlockFailedActions cfg from_number call_sid)

/-- `TwilioWebhookHandler.do_POST` as an action trace. -/
def do_POST (cfg : WebhookConfig) (req : TwilioRequest)
    (ext : ExternalOutcomes) : List Action :=
  if ¬ (req.path = "/twilio/voice" ∨ req.path = "/twilio/voice/confirm") then
    [.sendXmlSay 404 "Not found." cfg.twilio_tts_voice]
  else if ¬ (is_valid_twilio_signature req.signature
      (cfg.public_base_url ++ req.path) req.form cfg.twilio_auth_token = true) then
    [.record "signature_invalid" req.path "" "", .sendPlain 403 "forbidden"]
  else
    let from_number := formGet req.form "From"
    let call_sid := formGet req.form "CallSid"
    .record "twilio_request" req.path from_number call_sid ::
    (match ext.loadResult with
     | .error _ =>
       [.record "allowed_callers_error" cfg.allowed_callers_file
          from_number call_sid,
        .sendXmlSay 200 "Unable to verify access right now. Please try again."
          cfg.twilio_tts_voice]
     | .ok allowed_callers =>
       match find_allowed_caller from_number allowed_callers with
       | none =>
         [.record "caller_blocked" "" from_number call_sid,
          .sendXmlSay 200 "This incoming number is not authorized for this gate."
            cfg.twilio_tts_voice]
       | some allowed_caller =>
         if req.path = "/twilio/voice" then
           [.record "caller_prompted" "" from_number call_sid,
            .sendXmlGather 200 "Press 1 now to open the gate."
              "/twilio/voice/confirm" cfg.twilio_tts_voice]
         else
           let digit := pyStrip (formGet req.form "Digits")
           if digit ≠ "1" then
             [.record "invalid_digit" (if digit = "" then "empty" else digit)
                from_number call_sid,
              .sendXmlSay 200 "Invalid selection. Goodbye." cfg.twilio_tts_voice]
           else unlockFlow cfg ext from_number call_sid digit allowed_caller)

/-- Whether an action is an HTTP response. -/
def isSend : Action → Bool
  | .sendXmlSay _ _ _ => true
  | .sendXmlGather _ _ _ _ => true
  | .sendPlain _ _ => true
  | _ => false

/-- Whether an action is a branch-outcome ledger record (any record other
than the unconditional mid-flow `twilio_request`). -/
def isOutcomeRecord : Action → Bool
  | .record e _ _ _ => e != "twilio_request"
  | _ => false

/-- The claim formulation of C5: every branch-outcome record is preceded
by a send. -/
def sendBeforeOutcomeRecords (seenSend : Bool) : List Action → Bool
  | [] => true
  | a :: rest =>
    (if isOutcomeRecord a then seenSend else true) &&
      sendBeforeOutcomeRecords (seenSend || isSend a) rest

/-- The amended formulation: every record other than `unlock_success` is
written strictly before any send, and an `unlock_success` record is
written only after a send. -/
def amendedLedgerOrder (seenSend : Bool) : List Action → Bool
  | [] => true
  | .record e _ _ _ :: rest =>
    (if e == "unlock_success" then seenSend else !seenSend) &&
      amendedLedgerOrder seenSend rest
  | a :: rest => amendedLedgerOrder (seenSend || isSend a) rest

/-! ### C5 -/

/-- C5 (amended): on every input, the ledger record of each branch is
written before the response is sent, except in the `unlock_success` branch,
where the response is sent first and the record is written after it. -/
theorem C5_ledger_order_amended (cfg : WebhookConfig) (req : TwilioRequest)
    (ext : ExternalOutcomes) :
    amendedLedgerOrder false (do_POST cfg req ext) = true := by
  unfold do_POST unlockFlow unlockFailedActions
  repeat' split
  all_goals try simp [amendedLedgerOrder, isSend]
  all_goals repeat' split
  all_goals try simp [amendedLedgerOrder, isSend]

/-- Counterexample for C5 as stated: on a concrete authorized-signature
request from a caller who is not on the (empty) allow-list, the
`caller_blocked` record is written before the 200 response is sent, so the
response is not sent first. -/
theorem C5_ledger_order_counterexample :
    sendBeforeOutcomeRecords false (do_POST
      ⟨"Gate", "phone-gate-bridge", "Phone Gate Bridge", "/etc/cc.toml",
        "tok", "https://g", "Polly.Joanna-Neural"⟩
      ⟨"/twilio/voice", [("From", ["+15550001111"])],
        some (build_twilio_signature ("https://g" ++ "/twilio/voice")
          [("From", ["+15550001111"])] "tok")⟩
      ⟨.ok [], .error (), true⟩) = false := by
  have hsig := verify_of_sign ("https://g" ++ "/twilio/voice")
    [("From", ["+15550001111"])] "tok"
  simp only [do_POST, hsig]
  norm_num
  decide

/-! ### C1 -/

/-- A successfully resolved door id is never the empty string. -/
theorem find_door_id_ok_ne_empty (q : String) (doors : List Door) (id : String)
    (h : find_door_id q doors = .ok id) : id ≠ "" := by
  intro hid
  subst hid
  unfold find_door_id at h
  by_cases hq : q = ""
  · rw [if_pos hq] at h
    exact absurd h (by simp)
  · rw [if_neg hq] at h
    have h' : (if selectedMatches (pyLower (pyStrip q)) doors = [] then
          (.error .noMatch : Except FindDoorError String)
        else if 1 < (selectedMatches (pyLower (pyStrip q)) doors).length then
          .error (.ambiguous ((selectedMatches (pyLower (pyStrip q)) doors).map
            doorDisplayName))
        else if pyStrip ((selectedMatches (pyLower (pyStrip q)) doors).headD
            ⟨"", "", ""⟩).id = "" then .error .missingId
        else .ok ((selectedMatches (pyLower (pyStrip q)) doors).headD
            ⟨"", "", ""⟩).id) = .ok "" := h
    by_cases h1 : selectedMatches (pyLower (pyStrip q)) doors = []
    · rw [if_pos h1] at h'
      exact absurd h' (by simp)
    · rw [if_neg h1] at h'
      by_cases h2 : 1 < (selectedMatches (pyLower (pyStrip q)) doors).length
      · rw [if_pos h2] at h'
        exact absurd h' (by simp)
      · rw [if_neg h2] at h'
        by_cases h3 : pyStrip ((selectedMatches (pyLower (pyStrip q)) doors).headD
            ⟨"", "", ""⟩).id = ""
        · rw [if_pos h3] at h'
          exact absurd h' (by simp)
        · rw [if_neg h3] at h'
          have hide : ((selectedMatches (pyLower (pyStrip q)) doors).headD
              ⟨"", "", ""⟩).id = "" := Except.ok.inj h'
          rw [hide] at h3
          exact h3 rfl

/-- With both actor fields supplied and a non-empty door id, the unlock
request is built. -/
theorem unlock_door_both_ok (door_id a n : String)
    (extra : Option (List (String × String))) (hd : door_id ≠ "") :
    unlock_door door_id (some a) (some n) extra =
      .ok ⟨door_id, some (a, n), extra⟩ := by
  unfold unlock_door
  rw [if_neg hd]
  rfl

/-- C1 (amended): on the confirm leg, after the signature and authorization
checks pass, the submitted digit is trimmed; anything other than exactly
`"1"` records `invalid_digit` (detail the trimmed digit, or `"empty"` when
it is empty) with a 200 invalid-selection response; exactly `"1"` resolves
the configured door name and calls unlock with the service actor identity
and `extra = [source: "twilio-voice", from, call_sid, digit, caller_name]`. -/
theorem C1_confirm_leg (cfg : WebhookConfig) (req : TwilioRequest)
    (allowed_callers : List AllowedCaller) (ac : AllowedCaller)
    (ext : ExternalOutcomes)
    (hpath : req.path = "/twilio/voice/confirm")
    (hsig : is_valid_twilio_signature req.signature
      (cfg.public_base_url ++ "/twilio/voice/confirm") req.form
      cfg.twilio_auth_token = true)
    (hload : ext.loadResult = .ok allowed_callers)
    (hcaller : find_allowed_caller (formGet req.form "From") allowed_callers =
      some ac) :
    (pyStrip (formGet req.form "Digits") ≠ "1" →
      do_POST cfg req ext =
        [.record "twilio_request" "/twilio/voice/confirm"
           (formGet req.form "From") (formGet req.form "CallSid"),
         .record "invalid_digit"
           (if pyStrip (formGet req.form "Digits") = "" then "empty"
            else pyStrip (formGet req.form "Digits"))
           (formGet req.form "From") (formGet req.form "CallSid"),
         .sendXmlSay 200 "Invalid selection. Goodbye." cfg.twilio_tts_voice]) ∧
    (∀ doors door_id, pyStrip (formGet req.form "Digits") = "1" →
      ext.doorsResult = .ok doors →
      find_door_id cfg.door_name doors = .ok door_id →
      do_POST cfg req ext =
        .record "twilio_request" "/twilio/voice/confirm"
          (formGet req.form "From") (formGet req.form "CallSid") ::
        .unlockCall door_id cfg.actor_id cfg.actor_name
          [("source", "twilio-voice"), ("from", formGet req.form "From"),
           ("call_sid", formGet req.form "CallSid"), ("digit", "1"),
           ("caller_name", ac.name)] ::
        (if ext.unlockOk then
          [.sendXmlSay 200 "The gate is now open." cfg.twilio_tts_voice,
           .record "unlock_success" cfg.door_name (formGet req.form "From")
             (formGet req.form "CallSid")]
        else
          [.record "unlock_failed" cfg.door_name (formGet req.form "From")
             (formGet req.form "CallSid"),
           .sendXmlSay 200 "Unable to open the gate right now. Please try again."
             cfg.twilio_tts_voice])) := by
  constructor
  · intro hdig
    simp only [do_POST, hpath]
    rw [if_neg (by simp), if_neg (by simp [hsig])]
    simp only [hload, hcaller]
    rw [if_neg (by simp), if_pos hdig]
  · intro doors door_id hdig hdoors hfind
    simp only [do_POST, hpath]
    rw [if_neg (by simp), if_neg (by simp [hsig])]
    simp only [hload, hcaller]
    rw [if_neg (by simp), if_neg (by simp [hdig])]
    simp only [unlockFlow, hdoors, hfind, hdig,
      unlock_door_both_ok door_id cfg.actor_id cfg.actor_name _
        (find_door_id_ok_ne_empty cfg.door_name doors door_id hfind)]
    rfl

/-- Witness for C1 at a concrete configuration, request, allow-list and
door list. -/
theorem C1_confirm_leg_witness :
    do_POST
      ⟨"Gate", "phone-gate-bridge", "Phone Gate Bridge", "/etc/cc.toml",
        "tok", "https://g", "Polly.Joanna-Neural"⟩
      ⟨"/twilio/voice/confirm",
        [("CallSid", ["CA1"]), ("Digits", ["5"]), ("From", ["+15550001111"])],
        some (build_twilio_signature ("https://g" ++ "/twilio/voice/confirm")
          [("CallSid", ["CA1"]), ("Digits", ["5"]), ("From", ["+15550001111"])]
          "tok")⟩
      ⟨.ok [⟨"+15550001111", "Oren", true, ""⟩],
        .ok [⟨"Gate", "Main Gate", "door-1"⟩], true⟩ =
      [.record "twilio_request" "/twilio/voice/confirm" "+15550001111" "CA1",
       .record "invalid_digit" "5" "+15550001111" "CA1",
       .sendXmlSay 200 "Invalid selection. Goodbye." "Polly.Joanna-Neural"] := by
  have h := (C1_confirm_leg
    ⟨"Gate", "phone-gate-bridge", "Phone Gate Bridge", "/etc/cc.toml",
      "tok", "https://g", "Polly.Joanna-Neural"⟩
    ⟨"/twilio/voice/confirm",
      [("CallSid", ["CA1"]), ("Digits", ["5"]), ("From", ["+15550001111"])],
      some (build_twilio_signature ("https://g" ++ "/twilio/voice/confirm")
        [("CallSid", ["CA1"]), ("Digits", ["5"]), ("From", ["+15550001111"])]
        "tok")⟩
    [⟨"+15550001111", "Oren", true, ""⟩] ⟨"+15550001111", "Oren", true, ""⟩
    ⟨.ok [⟨"+15550001111", "Oren", true, ""⟩],
      .ok [⟨"Gate", "Main Gate", "door-1"⟩], true⟩
    rfl
    (verify_of_sign ("https://g" ++ "/twilio/voice/confirm")
      [("CallSid", ["CA1"]), ("Digits", ["5"]), ("From", ["+15550001111"])]
      "tok")
    rfl (by decide)).1 (by decide)
  rw [h]
  decide

/-- Counterexample for C1 as stated: the submitted digit `" 1 "` is not
exactly `"1"`, yet the gate is unlocked (no `invalid_digit` event), and the
`extra` payload carries `source = "twilio-voice"`, not `"telephony"`. -/
theorem C1_confirm_leg_counterexample :
    do_POST
      ⟨"Gate", "phone-gate-bridge", "Phone Gate Bridge", "/etc/cc.toml",
        "tok", "https://g", "Polly.Joanna-Neural"⟩
      ⟨"/twilio/voice/confirm",
        [("CallSid", ["CA1"]), ("Digits", [" 1 "]), ("From", ["+15550001111"])],
        some (build_twilio_signature ("https://g" ++ "/twilio/voice/confirm")
          [("CallSid", ["CA1"]), ("Digits", [" 1 "]), ("From", ["+15550001111"])]
          "tok")⟩
      ⟨.ok [⟨"+15550001111", "Oren", true, ""⟩],
        .ok [⟨"Gate", "Main Gate", "door-1"⟩], true⟩ =
      [.record "twilio_request" "/twilio/voice/confirm" "+15550001111" "CA1",
       .unlockCall "door-1" "phone-gate-bridge" "Phone Gate Bridge"
         [("source", "twilio-voice"), ("from", "+15550001111"),
          ("call_sid", "CA1"), ("digit", "1"), ("caller_name", "Oren")],
       .sendXmlSay 200 "The gate is now open." "Polly.Joanna-Neural",
       .record "unlock_success" "Gate" "+15550001111" "CA1"] := by
  have hsig := verify_of_sign ("https://g" ++ "/twilio/voice/confirm")
    [("CallSid", ["CA1"]), ("Digits", [" 1 "]), ("From", ["+15550001111"])] "tok"
  simp only [do_POST, hsig]
  norm_num
  decide

end GateBridge
